import Mathlib

/-!
Verification of the request-dispatch and query-caching subsystem of the
CloudRealm/launcher backend, a shallow embedding of `src/back/responses.ts`.

Conventions of the embedding:
* pure TypeScript functions become Lean functions over the same data;
* the mutable `BackState` is passed explicitly, and each socket handler is
  a function from its inputs (request fields plus the values returned by
  the external collaborators it awaits) to the new state, its side-effect
  trace, and the envelopes it sends;
* JavaScript numbers used as indices are modeled as `Int`, strings as
  `String`, objects as association lists;
* external collaborators (the catalog store `GameManager`, the filesystem,
  `SocketServer.respond`) are modeled by parameters carrying the values
  they would produce, or by explicit effect traces.
-/

set_option maxRecDepth 8192
set_option maxHeartbeats 1000000

namespace Launcher

/-- A catalog entry (the `Game` database entity), restricted to the fields that
`src/back/responses.ts` reads: the identifier, the title, the metadata fields
copied into the transport projection, and the identifiers of its additional
applications. -/
structure Game where
  id : String
  title : String
  platform : String
  tags : String
  developer : String
  publisher : String
  addApps : List String
deriving DecidableEq

/-- The reduced-field view projection `ViewGame` sent to the renderer. -/
structure ViewGame where
  id : String
  title : String
  platform : String
  genre : String
  developer : String
  publisher : String
deriving DecidableEq

/-- The projection of one game performed by `queryGames`
(responses.ts lines 836-843): `genre` receives the game's `tags`. -/
def projectGame (g : Game) : ViewGame :=
  { id := g.id
    title := g.title
    platform := g.platform
    genre := g.tags
    developer := g.developer
    publisher := g.publisher }

/-- The `BackQuery` value each browse handler builds from `req.data.query`
(responses.ts lines 373-381, 399-407, 484-492): seven fields, `library` and
`playlistId` optional. -/
structure BackQuery where
  extreme : Bool
  broken : Bool
  library : Option String
  search : String
  orderBy : String
  orderReverse : String
  playlistId : Option String
deriving DecidableEq

/-- A cache entry (`BackQueryChache` in `src/back/types.ts`, name kept as in the
source): the query, the full ordered result list, and its view projection. -/
structure BackQueryChache where
  query : BackQuery
  games : List Game
  viewGames : List ViewGame
deriving DecidableEq

/-- `queryGames` (responses.ts lines 820-851). The filtered and ordered result
list comes from the external catalog store (`searchGames` delegates to
`GameManager.findGames`), so it is a parameter; the part implemented in
`responses.ts` is the construction of the `ViewGame` projection, one view per
result in order. -/
def queryGames (results : List Game) (query : BackQuery) : BackQueryChache :=
  { query := query
    games := results
    viewGames := results.map projectGame }

/-- ECMAScript `Array.prototype.slice(start, end)` on a list: a negative index
counts from the end of the array, and both indices are then clamped to the
interval from `0` to the length. -/
def jsSlice (l : List α) (start stop : Int) : List α :=
  let len : Int := l.length
  let k : Int := if start < 0 then max (len + start) 0 else min start len
  let f : Int := if stop < 0 then max (len + stop) 0 else min stop len
  (l.take f.toNat).drop k.toNat

/-- The payload of the `BROWSE_VIEW_PAGE_RESPONSE` envelope. -/
structure BrowseViewPageResponseData where
  games : List ViewGame
  offset : Int
  total : Nat
deriving DecidableEq

/-- The response computed by the `BROWSE_VIEW_PAGE` handler from the cache
entry of the query (responses.ts lines 387-395): `games` is
`cache.viewGames.slice(offset, offset + limit)` and `total` is
`cache.games.length`. -/
def browseViewPageResponse (cache : BackQueryChache) (offset limit : Int) :
    BrowseViewPageResponseData :=
  { games := jsSlice cache.viewGames offset (offset + limit)
    offset := offset
    total := cache.games.length }

/-- The window of the view projection claimed by the spec for `page`: the
elements at positions from `offset` (inclusive) to `offset + limit`
(exclusive), with both ends clipped to the bounds of the projection. -/
def specClipWindow (l : List ViewGame) (offset limit : Int) : List ViewGame :=
  (l.take (offset + limit).toNat).drop offset.toNat

/-- A concrete view entry used by closed test statements. -/
def sampleView (n : Nat) : ViewGame :=
  { id := toString n
    title := toString n
    platform := ""
    genre := ""
    developer := ""
    publisher := ""
  }

/-- A concrete game used by closed test statements. -/
def sampleGame (n : Nat) : Game :=
  { id := toString n
    title := toString n
    platform := ""
    tags := ""
    developer := ""
    publisher := ""
    addApps := []
  }

/-- A concrete three-element cache entry used by the C4 counterexample. -/
def cacheThree : BackQueryChache :=
  { query :=
      { extreme := false
        broken := false
        library := none
        search := ""
        orderBy := "title"
        orderReverse := "ascending"
        playlistId := none }
    games := [sampleGame 0, sampleGame 1, sampleGame 2]
    viewGames := [sampleView 0, sampleView 1, sampleView 2] }

/-- C4 counterexample: with three cached results, `offset = 1` and
`limit = -2`, the handler evaluates `viewGames.slice(1, -1)`, which under the
ECMAScript from-the-end interpretation of a negative bound returns the middle
element, while the window of the claim, clipped to bounds, is empty. The
caller-supplied pair therefore does not always yield the clipped window. -/
theorem browse_page_negative_limit_cex :
    browseViewPageResponse cacheThree 1 (-2) ≠
      { games := specClipWindow cacheThree.viewGames 1 (-2)
        offset := 1
        total := cacheThree.games.length } := by
  decide

/-- C4 (amended): the handler never reads out of bounds: the returned `games`
are always a sublist of the view projection and `total` always equals the full
result count; and whenever the caller-supplied `offset` and `limit` are both
nonnegative, the returned `games` are exactly the window
`viewProjection[offset : offset + limit)` clipped to the bounds of the
projection. Negative arguments instead follow the from-the-end semantics of
`Array.prototype.slice`. -/
theorem browse_page_clips (cache : BackQueryChache) (offset limit : Int)
    (ho : 0 ≤ offset) (hl : 0 ≤ limit) :
    (browseViewPageResponse cache offset limit).games =
        specClipWindow cache.viewGames offset limit
      ∧ (∀ o t : Int,
          (browseViewPageResponse cache o t).total = cache.games.length
          ∧ ((browseViewPageResponse cache o t).games).Sublist cache.viewGames) := by
  constructor
  · show jsSlice cache.viewGames offset (offset + limit) =
      specClipWindow cache.viewGames offset limit
    unfold jsSlice specClipWindow
    simp only
    set l := cache.viewGames with hv
    rcases le_or_lt (offset + limit) (l.length : Int) with hOL | hOL
    · rcases le_or_lt offset (l.length : Int) with hO | hO
      · rw [if_neg (by omega), if_neg (by omega)]
        have h1 : (min offset (l.length : Int)).toNat = offset.toNat := by omega
        have h2 : (min (offset + limit) (l.length : Int)).toNat
            = (offset + limit).toNat := by omega
        rw [h1, h2]
      · -- offset beyond the length: both sides are empty
        rw [if_neg (by omega), if_neg (by omega)]
        have h1 : (min offset (l.length : Int)).toNat = l.length := by omega
        rw [h1]
        have hd1 : (l.take (min (offset + limit) (l.length : Int)).toNat).length ≤ l.length := by
          simp
        have hd2 : (l.take (offset + limit).toNat).length ≤ l.length := by
          simp
        rw [List.drop_eq_nil_of_le hd1, List.drop_eq_nil_of_le (by omega)]
    · -- the end of the window reaches past the length: take the whole list
      rw [if_neg (by omega), if_neg (by omega)]
      have h2 : (min (offset + limit) (l.length : Int)).toNat = l.length := by omega
      rw [h2, List.take_length, List.take_of_length_le (by omega)]
      rcases le_or_lt offset (l.length : Int) with hO | hO
      · have h1 : (min offset (l.length : Int)).toNat = offset.toNat := by omega
        rw [h1]
      · have h1 : (min offset (l.length : Int)).toNat = l.length := by omega
        rw [h1]
        rw [List.drop_eq_nil_of_le le_rfl, List.drop_eq_nil_of_le (by omega)]
  · intro o t
    refine ⟨rfl, ?_⟩
    show (jsSlice cache.viewGames o (o + t)).Sublist cache.viewGames
    unfold jsSlice
    exact ((List.take _ _).drop_sublist _).trans (cache.viewGames.take_sublist _)

/-- C4 witness: the amended statement evaluated at the concrete three-element
cache with `offset = 0`, `limit = 2`. -/
theorem browse_page_clips_witness :
    (browseViewPageResponse cacheThree 0 2).games =
        specClipWindow cacheThree.viewGames 0 2
      ∧ (∀ o t : Int,
          (browseViewPageResponse cacheThree o t).total = cacheThree.games.length
          ∧ ((browseViewPageResponse cacheThree o t).games).Sublist cacheThree.viewGames) :=
  browse_page_clips cacheThree 0 2 (by decide) (by decide)

/-! ## Quick search (C5) -/

/-- Char-wise lowercasing, modeling `String.prototype.toLowerCase`. JavaScript
performs the Unicode simple case mapping; the embedding applies the per-character
mapping of `Char.toLower`. -/
def jsToLowerCase (s : String) : String := String.mk (s.data.map Char.toLower)

/-- `String.prototype.startsWith(search)`: the characters of `search` are a
prefix of the characters of the receiver. -/
def jsStartsWith (s search : String) : Bool := search.data.isPrefixOf s.data

/-- The scan loop of the `QUICK_SEARCH` handler (responses.ts lines 500-506),
with the running index made explicit: the first entry of `cache.games`, from
position `i` on, whose lowercased title starts with the search text `search`
yields its index and id. The handler compares
`cache.games[i].title.toLowerCase().startsWith(req.data.search)`: the search
text itself is used exactly as received. -/
def quickSearchScan (search : String) : List Game → Nat → Option (Nat × String)
  | [], _ => none
  | g :: rest, i =>
    if jsStartsWith (jsToLowerCase g.title) search then some (i, g.id)
    else quickSearchScan search rest (i + 1)

/-- The `index` and `id` answered by the `QUICK_SEARCH` handler for a cache
entry (responses.ts lines 498-515); `none` models the pair of absent fields. -/
def quickSearchResult (cache : BackQueryChache) (search : String) :
    Option (Nat × String) :=
  quickSearchScan search cache.games 0

/-- The quick-search scan as worded by the claim: both the title and the
prefix are case-folded before the starts-with test. -/
def claimQuickSearchScan (search : String) : List Game → Nat → Option (Nat × String)
  | [], _ => none
  | g :: rest, i =>
    if jsStartsWith (jsToLowerCase g.title) (jsToLowerCase search) then some (i, g.id)
    else claimQuickSearchScan search rest (i + 1)

/-- A one-game cache entry whose title carries upper-case letters. -/
def cacheMario : BackQueryChache :=
  { query :=
      { extreme := false
        broken := false
        library := none
        search := ""
        orderBy := "title"
        orderReverse := "ascending"
        playlistId := none }
    games := [{ id := "g1", title := "Mario", platform := "", tags := ""
                developer := "", publisher := "", addApps := [] }]
    viewGames := [] }

/-- C5 counterexample: for the prefix string "Mar" and a catalog entry titled
"Mario", the case-folded title "mario" does start with the case-folded prefix
"mar", so the claim demands the entry's id and index; but the handler compares
the lowercased title against the prefix as received and answers absent. -/
theorem quick_search_case_fold_cex :
    quickSearchResult cacheMario "Mar" = none
      ∧ claimQuickSearchScan "Mar" cacheMario.games 0 = some (0, "g1") := by
  constructor
  · show quickSearchScan "Mar" cacheMario.games 0 = none
    decide
  · decide

/-- The match predicate of the quick-search loop. -/
def quickSearchMatches (search : String) (g : Game) : Bool :=
  jsStartsWith (jsToLowerCase g.title) search

theorem quickSearchScan_some (search : String) :
    ∀ (games : List Game) (n i : Nat) (gid : String),
      quickSearchScan search games n = some (i, gid) →
      ∃ j g, i = n + j ∧ games[j]? = some g
        ∧ quickSearchMatches search g = true ∧ gid = g.id
        ∧ ∀ g' ∈ games.take j, quickSearchMatches search g' = false := by
  intro games
  induction games with
  | nil => intro n i gid h; simp [quickSearchScan] at h
  | cons g rest ih =>
    intro n i gid h
    rw [quickSearchScan] at h
    by_cases hm : jsStartsWith (jsToLowerCase g.title) search = true
    · rw [if_pos hm] at h
      simp only [Option.some.injEq, Prod.mk.injEq] at h
      obtain ⟨h1, h2⟩ := h
      subst h1
      refine ⟨0, g, by omega, by simp, hm, h2.symm, ?_⟩
      intro g' hg'; simp at hg'
    · rw [if_neg hm] at h
      obtain ⟨j, g', hj, hget, hm', hid, hpre⟩ := ih (n + 1) i gid h
      refine ⟨j + 1, g', by omega, by simpa using hget, hm', hid, ?_⟩
      intro g'' hg''
      rcases List.mem_cons.mp (by simpa using hg'') with h1 | h1
      · subst h1
        unfold quickSearchMatches
        simpa using hm
      · exact hpre g'' h1

theorem quickSearchScan_none (search : String) :
    ∀ (games : List Game) (n : Nat),
      quickSearchScan search games n = none →
      ∀ g ∈ games, quickSearchMatches search g = false := by
  intro games
  induction games with
  | nil => intro n _ g hg; simp at hg
  | cons g rest ih =>
    intro n h g' hg'
    rw [quickSearchScan] at h
    by_cases hm : jsStartsWith (jsToLowerCase g.title) search = true
    · rw [if_pos hm] at h; exact absurd h (by simp)
    · rw [if_neg hm] at h
      rcases List.mem_cons.mp hg' with h1 | h1
      · subst h1
        unfold quickSearchMatches
        simpa using hm
      · exact ih (n + 1) h g' h1

/-- C5 (amended): quick search returns the id and index of the first entry of
the cached `games` list whose title, case-folded, starts with the prefix string
exactly as supplied (the handler does not case-fold the prefix), and returns
absent when no entry's case-folded title starts with it. -/
theorem quick_search_first_raw_match (cache : BackQueryChache) (search : String) :
    (∀ i gid, quickSearchResult cache search = some (i, gid) →
        ∃ g, cache.games[i]? = some g
          ∧ quickSearchMatches search g = true ∧ gid = g.id
          ∧ ∀ g' ∈ cache.games.take i, quickSearchMatches search g' = false)
      ∧ (quickSearchResult cache search = none →
          ∀ g ∈ cache.games, quickSearchMatches search g = false) := by
  constructor
  · intro i gid h
    obtain ⟨j, g, hj, hget, hm, hid, hpre⟩ := quickSearchScan_some search cache.games 0 i gid h
    exact ⟨g, by simpa [hj] using hget, hm, hid, by simpa [hj] using hpre⟩
  · intro h
    exact quickSearchScan_none search cache.games 0 h

/-- C5 witness: the amended statement evaluated at the one-game cache with the
already-lowercased prefix "mar", which the handler does find at index 0. -/
theorem quick_search_first_raw_match_witness :
    ∃ g, cacheMario.games[0]? = some g
      ∧ quickSearchMatches "mar" g = true ∧ "g1" = g.id
      ∧ ∀ g' ∈ cacheMario.games.take 0, quickSearchMatches "mar" g' = false :=
  (quick_search_first_raw_match cacheMario "mar").1 0 "g1" (by decide)

/-! ## Catalog mutation and cache invalidation (C2, C10) -/

/-- The outbound operation codes of `BackOut` used by the handlers in
`responses.ts` (the `LOG` event is the unsolicited broadcast of the external
`log` helper described by the spec). -/
inductive BackOut where
  | GET_MAIN_INIT_DATA
  | GENERIC_RESPONSE
  | INIT_EVENT
  | LOCALE_UPDATE
  | BROWSE_CHANGE
  | BROWSE_VIEW_PAGE_RESPONSE
  | IMAGE_CHANGE
  | LANGUAGE_CHANGE
  | UPDATE_PREFERENCES_RESPONSE
  | QUIT
  | LOG
deriving DecidableEq

/-- The slice of the mutable `BackState` that the cache claims concern: the
query cache, a JavaScript object keyed by fingerprint, modeled as an
association list. -/
structure CacheState where
  queries : List (String × BackQueryChache)
deriving DecidableEq

/-- A `BROWSE_CHANGE` response envelope with its payload
(`BrowseChangeData`: the library, when the request carried one, and the new
catalog total). -/
structure BrowseChangeEnvelope where
  id : String
  type : BackOut
  library : Option String
  gamesTotal : Nat
deriving DecidableEq

/-- The `SAVE_GAME` handler (responses.ts lines 206-220): persist the entry via
the external `GameManager.updateGame`, clear the entire query cache, and answer
one `BROWSE_CHANGE` envelope with the request's library and the new total
(`gamesTotal` is the value of the external `GameManager.countGames`). -/
def saveGameHandler (state : CacheState) (library : Option String)
    (gamesTotal : Nat) (reqId : String) : CacheState × BrowseChangeEnvelope :=
  ({ state with queries := [] },
   { id := reqId, type := BackOut.BROWSE_CHANGE
     library := library, gamesTotal := gamesTotal })

/-- The `DELETE_GAME` handler (responses.ts lines 222-236): remove the entry and
its additional applications via the external `GameManager.removeGameAndAddApps`,
clear the entire query cache, and answer one `BROWSE_CHANGE` envelope with
`library: undefined` and the new total. -/
def deleteGameHandler (state : CacheState) (gamesTotal : Nat) (reqId : String) :
    CacheState × BrowseChangeEnvelope :=
  ({ state with queries := [] },
   { id := reqId, type := BackOut.BROWSE_CHANGE
     library := none, gamesTotal := gamesTotal })

/-- The filesystem side effects of the `DUPLICATE_GAME` handler. -/
structure DuplicateEffects where
  updates : List Game
  logoCopied : Bool
  ssCopied : Bool
deriving DecidableEq

/-- The `DUPLICATE_GAME` handler (responses.ts lines 238-291). `found` is the
result of the external `GameManager.findGame(req.data.id)`. When the entry
exists, a copy with fresh identifiers (`newId`, `newAddAppIds` stand for the
generated uuids) is stored via `GameManager.updateGame`, the logo and
screenshot are copied when `dupeImages` is set and the source files exist
(`logoExists`, `ssExists` are the answers of the external `pathExists`), and
the whole query cache is cleared. In both branches exactly one `BROWSE_CHANGE`
envelope is sent with `library: undefined` and the current total. -/
def duplicateGameHandler (state : CacheState) (found : Option Game)
    (dupeImages : Bool) (newId : String) (newAddAppIds : List String)
    (logoExists ssExists : Bool) (gamesTotal : Nat) (reqId : String) :
    CacheState × DuplicateEffects × BrowseChangeEnvelope :=
  match found with
  | none =>
      (state,
       { updates := [], logoCopied := false, ssCopied := false },
       { id := reqId, type := BackOut.BROWSE_CHANGE
         library := none, gamesTotal := gamesTotal })
  | some game =>
      let newGame : Game := { game with id := newId, addApps := newAddAppIds }
      ({ state with queries := [] },
       { updates := [newGame]
         logoCopied := dupeImages && logoExists
         ssCopied := dupeImages && ssExists },
       { id := reqId, type := BackOut.BROWSE_CHANGE
         library := none, gamesTotal := gamesTotal })

/-- The cache consultation shared by the browse and quick-search handlers
(responses.ts lines 384-385, 410-411, 495-496): look the fingerprint up in
`state.queries`; on a miss, compute a fresh entry, store it, and report that a
recomputation took place. -/
def lookupOrCompute (queries : List (String × BackQueryChache)) (hash : String)
    (computed : BackQueryChache) :
    BackQueryChache × Bool × List (String × BackQueryChache) :=
  match queries.lookup hash with
  | some cache => (cache, false, queries)
  | none => (computed, true, (hash, computed) :: queries)

/-- C2: each catalog-mutating handler (save, delete, and duplicate whenever it
actually mutates the catalog, that is, when the entry was found) leaves an
empty query cache behind, so the next consultation of any fingerprint — in
particular, of every query cached before the mutation — misses and recomputes
its result set. -/
theorem mutation_invalidates_cache (state : CacheState) (library : Option String)
    (gamesTotal : Nat) (reqId : String) (g : Game) (dupeImages : Bool)
    (newId : String) (newAddAppIds : List String) (logoExists ssExists : Bool)
    (hash : String) (fresh : BackQueryChache) :
    ((saveGameHandler state library gamesTotal reqId).1.queries = []
      ∧ (lookupOrCompute (saveGameHandler state library gamesTotal reqId).1.queries
          hash fresh).2.1 = true)
    ∧ ((deleteGameHandler state gamesTotal reqId).1.queries = []
      ∧ (lookupOrCompute (deleteGameHandler state gamesTotal reqId).1.queries
          hash fresh).2.1 = true)
    ∧ ((duplicateGameHandler state (some g) dupeImages newId newAddAppIds
          logoExists ssExists gamesTotal reqId).1.queries = []
      ∧ (lookupOrCompute (duplicateGameHandler state (some g) dupeImages newId
          newAddAppIds logoExists ssExists gamesTotal reqId).1.queries
          hash fresh).2.1 = true) := by
  refine ⟨⟨rfl, rfl⟩, ⟨rfl, rfl⟩, rfl, rfl⟩

/-- C10: duplicating a nonexistent catalog entry is a silent no-op that looks
like a success: the handler leaves the state — in particular the query cache —
unchanged, stores no copy, copies no image file, and still sends the one
ordinary `BROWSE_CHANGE` envelope carrying the current catalog total; that
envelope is identical to the one sent on the successful path, so nothing in
the response indicates an error. -/
theorem duplicate_missing_silent_noop (state : CacheState) (dupeImages : Bool)
    (newId : String) (newAddAppIds : List String) (logoExists ssExists : Bool)
    (gamesTotal : Nat) (reqId : String) :
    duplicateGameHandler state none dupeImages newId newAddAppIds
        logoExists ssExists gamesTotal reqId
      = (state,
         { updates := [], logoCopied := false, ssCopied := false },
         { id := reqId, type := BackOut.BROWSE_CHANGE
           library := none, gamesTotal := gamesTotal })
    ∧ ∀ g : Game,
        (duplicateGameHandler state (some g) dupeImages newId newAddAppIds
          logoExists ssExists gamesTotal reqId).2.2
        = (duplicateGameHandler state none dupeImages newId newAddAppIds
          logoExists ssExists gamesTotal reqId).2.2 := by
  exact ⟨rfl, fun g => rfl⟩

/-! ## Playlist filename allocation (C6, C7) -/

/-- `String.prototype.lastIndexOf` for a single character, on the character
list: the position of the last occurrence, or none (`-1` in JavaScript). -/
def lastIndexOfChar (c : Char) : List Char → Option Nat
  | [] => none
  | d :: rest =>
    match lastIndexOfChar c rest with
    | some i => some (i + 1)
    | none => if d = c then some 0 else none

/-- Numeric value of a digit string, as `parseInt` reads the digits matched by
the regular expression. -/
def digitsToNat (l : List Char) : Nat :=
  l.foldl (fun acc c => 10 * acc + (c.toNat - 48)) 0

/-- The effect of matching `/ \d+$/` (a space followed by a trailing run of
digits): when the maximal digit suffix of `s` is nonempty and preceded by a
space, yields the value `parseInt` reads from the match together with the
string with the match removed (`replace(/ \d+$/, '')`); otherwise none. -/
def splitTrailingNum (s : List Char) : Option (Nat × List Char) :=
  let rev := s.reverse
  let ds := rev.takeWhile Char.isDigit
  if ds = [] then none
  else
    match rev.drop ds.length with
    | ' ' :: _ => some (digitsToNat ds.reverse, s.take (s.length - ds.length - 1))
    | _ => none

/-- The probing loop of the `SAVE_PLAYLIST` handler (responses.ts lines
625-633): starting at `n`, try `parts[0] + n + parts[1]` against the folder
(`pathExists`, modeled as membership in the folder's contents) while `n < 100`,
returning the first free candidate. The fuel argument is `100 - n`, so the
recursion mirrors the `while (n < 100)` loop exactly. -/
def probeAux (folder : List String) (p0 p1 : List Char) : Nat → Nat → Option String
  | _, 0 => none
  | n, fuel + 1 =>
    let cand := String.mk (p0 ++ (toString n).data ++ p1)
    if cand ∈ folder then probeAux folder p0 p1 (n + 1) fuel else some cand

/-- The filename-collision resolution of the `SAVE_PLAYLIST` handler
(responses.ts lines 598-636), as a function of the folder contents: if the
desired name is free it is returned unchanged; otherwise the name is split at
its last dot into `parts` (stem, and extension when a dot exists), a trailing
space-and-digits run is extracted from the LAST part of `parts` (the extension
when one exists) with next value defaulting to 2, a separating space is
appended to the stem only when there are two parts and the stem is nonempty and
does not already end in a space, and candidates are probed for `n` up to 99.
`none` models the aborted allocation (`coolFilename = ''`). -/
def allocateFilename (folder : List String) (filename : String) : Option String :=
  if filename ∈ folder then
    let fl := filename.data
    match lastIndexOfChar '.' fl with
    | some di =>
        let stem := fl.take di
        let ext := fl.drop di
        let startAndExt :=
          match splitTrailingNum ext with
          | some (k, stripped) => (k + 1, stripped)
          | none => (2, ext)
        let stem2 := if stem ≠ [] ∧ stem.getLast? ≠ some ' ' then stem ++ [' '] else stem
        probeAux folder stem2 startAndExt.2 startAndExt.1 (100 - startAndExt.1)
    | none =>
        let startAndStem :=
          match splitTrailingNum fl with
          | some (k, stripped) => (k + 1, stripped)
          | none => (2, fl)
        probeAux folder startAndStem.2 [] startAndStem.1 (100 - startAndStem.1)
  else some filename

/-- The probing loop as worded by claim C6: candidates are always formed as
stem, one separating space, the number, and the extension. -/
def claimProbeAux (folder : List String) (stem ext : List Char) :
    Nat → Nat → Option String
  | _, 0 => none
  | n, fuel + 1 =>
    let cand := String.mk (stem ++ ' ' :: (toString n).data ++ ext)
    if cand ∈ folder then claimProbeAux folder stem ext (n + 1) fuel else some cand

/-- The allocator as worded by claim C6: split into stem and extension, extract
the trailing space-and-digits run from the STEM (next value defaulting to 2),
and probe stem, one separating space, the incremented number, and the
extension. -/
def claimAllocate (folder : List String) (filename : String) : Option String :=
  if filename ∈ folder then
    let fl := filename.data
    let stemExt :=
      match lastIndexOfChar '.' fl with
      | some di => (fl.take di, fl.drop di)
      | none => (fl, ([] : List Char))
    let startAndStem :=
      match splitTrailingNum stemExt.1 with
      | some (k, stripped) => (k + 1, stripped)
      | none => (2, stemExt.1)
    claimProbeAux folder startAndStem.2 stemExt.2 startAndStem.1 (100 - startAndStem.1)
  else some filename

/-- C6 counterexample: for a folder containing only `Foo 2.json`, allocating
`Foo 2.json` probes `Foo 2 2.json` first and returns it, because the code
extracts the digit run from the extension part `.json` (finding none, so the
counter defaults to 2 and the stem keeps its ` 2`), while the claim's
description — extraction from the stem — would increment the stem's suffix and
return `Foo 3.json`. -/
theorem allocate_stem_extraction_cex :
    allocateFilename ["Foo 2.json"] "Foo 2.json" = some "Foo 2 2.json"
      ∧ claimAllocate ["Foo 2.json"] "Foo 2.json" = some "Foo 3.json"
      ∧ allocateFilename ["Foo 2.json"] "Foo 2.json"
          ≠ claimAllocate ["Foo 2.json"] "Foo 2.json" := by
  refine ⟨by decide, by decide, by decide⟩

theorem lastIndexOfChar_eq_none (c : Char) :
    ∀ l : List Char, c ∉ l → lastIndexOfChar c l = none := by
  intro l
  induction l with
  | nil => intro _; rfl
  | cons d rest ih =>
    intro h
    rw [lastIndexOfChar, ih (fun hm => h (List.mem_cons_of_mem d hm)),
      if_neg (fun he => h (by rw [← he]; exact List.mem_cons_self d rest))]

theorem lastIndexOfChar_append_cons (e : List Char) (hdot : '.' ∉ e) :
    ∀ stem : List Char,
      lastIndexOfChar '.' (stem ++ '.' :: e) = some stem.length := by
  intro stem
  induction stem with
  | nil =>
    show lastIndexOfChar '.' ('.' :: e) = some 0
    rw [lastIndexOfChar, lastIndexOfChar_eq_none '.' e hdot, if_pos rfl]
  | cons d rest ih =>
    show lastIndexOfChar '.' (d :: (rest ++ '.' :: e)) = some (rest.length + 1)
    rw [lastIndexOfChar, ih]

theorem probeAux_eq_find (folder : List String) (p0 p1 : List Char) :
    ∀ (fuel n : Nat),
      probeAux folder p0 p1 n fuel =
        ((List.range' n fuel).find?
            (fun m => !(decide (String.mk (p0 ++ (toString m).data ++ p1) ∈ folder)))).map
          (fun m => String.mk (p0 ++ (toString m).data ++ p1)) := by
  intro fuel
  induction fuel with
  | zero => intro n; rfl
  | succ fuel ih =>
    intro n
    rw [probeAux]
    by_cases hmem : String.mk (p0 ++ (toString n).data ++ p1) ∈ folder
    · rw [if_pos hmem, ih, List.range'_succ,
        List.find?_cons_of_neg _ (by simpa [List.append_assoc] using hmem)]
    · rw [if_neg hmem, List.range'_succ,
        List.find?_cons_of_pos _ (by simpa [List.append_assoc] using hmem)]
      rfl

/-- C6 (amended): when the desired filename is taken and has the shape
`stem.e` — a dotted name whose extension carries no trailing space-and-digits
run, with a nonempty stem not already ending in a space — the digit-run
extraction is applied to the extension part and therefore finds nothing, the
next value defaults to 2, and the allocator probes exactly the candidates
`stem`, one separating space, `n`, `.e` for `n` from 2 through 99, returning
the first free one (and failing if all are taken). In particular, for a folder
containing `Foo.json` and `Foo 2.json`, allocating `Foo.json` returns
`Foo 3.json`. -/
theorem allocate_probes_numbered (folder : List String) (stem e : List Char)
    (hmem : String.mk (stem ++ '.' :: e) ∈ folder)
    (hdot : '.' ∉ e)
    (hnum : splitTrailingNum ('.' :: e) = none)
    (hne : stem ≠ []) (hsp : stem.getLast? ≠ some ' ') :
    allocateFilename folder (String.mk (stem ++ '.' :: e)) =
      ((List.range' 2 98).find?
          (fun n => !(decide (String.mk (stem ++ ' ' :: (toString n).data ++ '.' :: e) ∈ folder)))).map
        (fun n => String.mk (stem ++ ' ' :: (toString n).data ++ '.' :: e)) := by
  unfold allocateFilename
  rw [if_pos hmem]
  show (match lastIndexOfChar '.' (stem ++ '.' :: e) with
    | some di => _
    | none => _) = _
  rw [lastIndexOfChar_append_cons e hdot stem]
  simp only [List.take_left, List.drop_left, hnum, if_pos (And.intro hne hsp)]
  rw [probeAux_eq_find]
  simp [List.append_assoc]

/-- C6 witness: the folder containing `Foo.json` and `Foo 2.json`; allocating
`Foo.json` goes through the numbered candidates and returns `Foo 3.json`. -/
theorem allocate_probes_numbered_witness :
    allocateFilename ["Foo.json", "Foo 2.json"] "Foo.json" = some "Foo 3.json" := by
  have h := allocate_probes_numbered ["Foo.json", "Foo 2.json"]
    ['F', 'o', 'o'] ['j', 's', 'o', 'n']
    (by decide) (by decide) (by decide) (by decide) (by decide)
  exact h.trans (by decide)

/-- The files unlinked by `deletePlaylist` (responses.ts lines 808-818), given
the filenames of the playlists known to the state: the function checks that the
id is nonempty, looks the playlist up by filename, and unlinks its file after a
containment guard on the joined path. `path.join(folder, name)` is modeled as
concatenation with a separator (no dot-dot normalization), under which the
guard of line 813 holds. -/
def deletePlaylistFx (id : String) (playlists : List String) : List String :=
  if id ≠ "" ∧ id ∈ playlists then [id] else []

/-- The filesystem effects of the `SAVE_PLAYLIST` handler (responses.ts lines
591-653): the pair of the playlist files written and the playlist files
deleted. `folderSet` abstracts `playlistWatcher.getFolder()` returning a
folder; `folderContents` is the set of filenames for which the external
`pathExists` answers true; `filename` is the desired filename after
`sanitizeFilename` (which lives outside `src/`); `playlists` are the filenames
of `state.playlists`. When `prevFilename` equals the desired filename the
existing playlist is overwritten; otherwise a free name is allocated and, on
success, written, after which a nonempty `prevFilename` (a rename) is deleted;
on allocation failure nothing is written or deleted. -/
def savePlaylistFx (folderSet : Bool) (folderContents : List String)
    (playlists : List String) (filename : String) (prevFilename : Option String) :
    List String × List String :=
  if folderSet ∧ filename ≠ "" then
    if prevFilename = some filename then ([filename], [])
    else
      match allocateFilename folderContents filename with
      | some coolFilename =>
          ([coolFilename],
           match prevFilename with
           | some p => if p ≠ "" then deletePlaylistFx p playlists else []
           | none => [])
      | none => ([], [])
  else ([], [])

/-- C7: when allocation is attempted (the request is not an overwrite of the
same filename) and fails — the desired name is taken and no probed numbered
candidate is free — the save aborts with no effect: no file is written, under
the desired name or any other, and no existing playlist file is deleted. The
second conjunct records that a failed allocation indeed means the desired
name was taken. -/
theorem exhausted_allocation_aborts (folderSet : Bool)
    (folderContents playlists : List String) (filename : String)
    (prevFilename : Option String)
    (halloc : allocateFilename folderContents filename = none)
    (hprev : prevFilename ≠ some filename) :
    savePlaylistFx folderSet folderContents playlists filename prevFilename = ([], [])
      ∧ filename ∈ folderContents := by
  constructor
  · unfold savePlaylistFx
    by_cases hgate : folderSet = true ∧ filename ≠ ""
    · rw [if_pos hgate, if_neg hprev, halloc]
    · rw [if_neg hgate]
  · by_contra hfree
    rw [allocateFilename, if_neg hfree] at halloc
    exact Option.some_ne_none filename halloc

/-- A folder in which `a.json` and all of its numbered candidates
`a 2.json` through `a 99.json` are taken. -/
def exhaustedFolder : List String :=
  "a.json" :: (List.range' 2 98).map (fun n => "a " ++ toString n ++ ".json")

/-- C7 witness: saving `a.json` (not a same-name overwrite) into the exhausted
folder writes nothing and deletes nothing. -/
theorem exhausted_allocation_aborts_witness :
    savePlaylistFx true exhaustedFolder ["b.json"] "a.json" none = ([], [])
      ∧ "a.json" ∈ exhaustedFolder :=
  exhausted_allocation_aborts true exhaustedFolder ["b.json"] "a.json" none
    (by decide) (by decide)

/-! ## Startup milestones (C9) -/

/-- The milestone tracker state: `state.init` (the set of boot stages already
done, here the list of their names) and the pending one-shot listeners of
`state.initEmitter`, each a pair of the awaited milestone and the channel to
notify. -/
structure TrackerState where
  done : List String
  listeners : List (String × Nat)
deriving DecidableEq

/-- The per-milestone body of the `INIT_LISTEN` handler
(responses.ts lines 97-110): when the milestone is already done it is only
reported in the correlated snapshot response (no listener is registered);
when it is pending, `initEmitter.once(init, ...)` registers the channel for
exactly one targeted notification. -/
def subscribeOnce (s : TrackerState) (m : String) (ch : Nat) : TrackerState :=
  if m ∈ s.done then s
  else { s with listeners := s.listeners ++ [(m, ch)] }

/-- Modelled from the spec: `complete(name)` — the completion site of a boot
stage and the `once` semantics of the Node event emitter are outside `src/`.
Per spec section 4.5: a pending milestone transitions to done exactly once and
every listener currently waiting on it is notified exactly once and
deregistered; completing an already-done milestone is an idempotent no-op. The
result pairs the new state with the channels notified. -/
def complete (s : TrackerState) (m : String) : TrackerState × List Nat :=
  if m ∈ s.done then (s, [])
  else
    ({ done := m :: s.done
       listeners := s.listeners.filter (fun l => !(l.1 = m : Bool)) },
     (s.listeners.filter (fun l => (l.1 = m : Bool))).map (fun l => l.2))

/-- C9: milestone subscriptions are one-shot. A channel subscribed while the
milestone is pending (and not already subscribed) is notified exactly once
when the milestone completes, and a second completion notifies it zero further
times; a subscription made after the milestone is done registers nothing, so a
later completion attempt notifies zero channels. -/
theorem subscribe_once_one_shot (s : TrackerState) (m : String) (ch : Nat)
    (hpending : m ∉ s.done) :
    (((complete (subscribeOnce s m ch) m).2.count ch
        = ((s.listeners.filter (fun l => (l.1 = m : Bool))).map (fun l => l.2)).count ch + 1)
      ∧ ((complete (complete (subscribeOnce s m ch) m).1 m).2 = []))
    ∧ (∀ t : TrackerState, m ∈ t.done →
        subscribeOnce t m ch = t ∧ (complete t m).2 = []) := by
  constructor
  · constructor
    · rw [subscribeOnce, if_neg hpending, complete]
      rw [if_neg hpending]
      simp only [List.filter_append, List.map_append]
      rw [List.count_append]
      simp
    · rw [subscribeOnce, if_neg hpending]
      have hinner :
          complete { done := s.done, listeners := s.listeners ++ [(m, ch)] } m
            = ({ done := m :: s.done
                 listeners := (s.listeners ++ [(m, ch)]).filter
                   (fun l => !(l.1 = m : Bool)) },
               ((s.listeners ++ [(m, ch)]).filter
                   (fun l => (l.1 = m : Bool))).map (fun l => l.2)) := by
        rw [complete, if_neg hpending]
      rw [hinner, complete, if_pos (by exact List.mem_cons_self m _)]
  · intro t hdone
    exact ⟨by rw [subscribeOnce, if_pos hdone], by rw [complete, if_pos hdone]⟩

/-- C9 witness: a fresh tracker with the milestone pending: subscribing then
completing notifies channel 7 exactly once, and a second completion notifies
nobody; on a tracker where the milestone is done, subscribing is a no-op and
completing notifies nobody. -/
theorem subscribe_once_one_shot_witness :
    (((complete (subscribeOnce ⟨[], []⟩ "games" 7) "games").2.count 7
        = (((⟨[], []⟩ : TrackerState).listeners.filter
            (fun l => (l.1 = "games" : Bool))).map (fun l => l.2)).count 7 + 1)
      ∧ ((complete (complete (subscribeOnce ⟨[], []⟩ "games" 7) "games").1 "games").2 = []))
    ∧ (∀ t : TrackerState, "games" ∈ t.done →
        subscribeOnce t "games" 7 = t ∧ (complete t "games").2 = []) :=
  subscribe_once_one_shot ⟨[], []⟩ "games" 7 (by decide)

/-! ## Request/response correlation (C3) -/

/-- The inbound operation codes (`BackIn`) of the handlers registered by
`registerRequestCallbacks` (responses.ts lines 41-751). -/
inductive BackIn where
  | ADD_LOG | GET_MAIN_INIT_DATA | GET_RENDERER_INIT_DATA | INIT_LISTEN
  | GET_SUGGESTIONS | GET_GAMES_TOTAL | SET_LOCALE | GET_EXEC
  | LAUNCH_ADDAPP | LAUNCH_GAME | SAVE_GAME | DELETE_GAME | DUPLICATE_GAME
  | EXPORT_GAME | GET_GAME | GET_ALL_GAMES | RANDOM_GAMES
  | BROWSE_VIEW_PAGE | BROWSE_VIEW_INDEX | SAVE_IMAGE | DELETE_IMAGE
  | QUICK_SEARCH | UPDATE_CONFIG | UPDATE_PREFERENCES | SERVICE_ACTION
  | GET_PLAYLISTS | SAVE_PLAYLIST | DELETE_PLAYLIST | IMPORT_CURATION
  | LAUNCH_CURATION | LAUNCH_CURATION_ADDAPP | QUIT
deriving DecidableEq

/-- A response envelope as far as correlation is concerned: its id (the
request's id for the correlated response, the empty string for unsolicited
events) and its outbound operation type. -/
structure Envelope where
  id : String
  type : BackOut
deriving DecidableEq

/-- The run-dependent inputs of one handler invocation: the request id and the
branch outcomes that influence which envelopes are sent. `pendingInits` is the
number of milestones still pending at an `INIT_LISTEN` request (each later
fires one unsolicited `INIT_EVENT`); `ioError` records whether a caught
filesystem or launch error was logged; `prefsDif` whether the preferences diff
was nonempty and `prefsLangChanged` whether it changed a language field (which
triggers a `LANGUAGE_CHANGE` broadcast). -/
structure HandlerCtx where
  reqId : String
  pendingInits : Nat
  ioError : Bool
  prefsDif : Bool
  prefsLangChanged : Bool

/-- The envelopes each registered handler sends that can reach the requesting
channel, in source order (responses.ts lines 41-751): for every handler the
one correlated response produced by `respond(event.target, ...id: req.id...)`,
plus any unsolicited events with the empty id — later `INIT_EVENT` one-shots,
the `LANGUAGE_CHANGE` broadcast, and the log-entry broadcast of the external
`log` helper (modelled from the spec as a fire-and-forget event). `ADD_LOG`
alone sends no correlated response. -/
def handlerSends (op : BackIn) (ctx : HandlerCtx) : List Envelope :=
  match op with
  | BackIn.ADD_LOG => [{ id := "", type := BackOut.LOG }]
  | BackIn.GET_MAIN_INIT_DATA => [{ id := ctx.reqId, type := BackOut.GET_MAIN_INIT_DATA }]
  | BackIn.GET_RENDERER_INIT_DATA => [{ id := ctx.reqId, type := BackOut.GENERIC_RESPONSE }]
  | BackIn.INIT_LISTEN =>
      List.replicate ctx.pendingInits { id := "", type := BackOut.INIT_EVENT }
        ++ [{ id := ctx.reqId, type := BackOut.INIT_EVENT }]
  | BackIn.GET_SUGGESTIONS => [{ id := ctx.reqId, type := BackOut.GENERIC_RESPONSE }]
  | BackIn.GET_GAMES_TOTAL => [{ id := ctx.reqId, type := BackOut.GENERIC_RESPONSE }]
  | BackIn.SET_LOCALE => [{ id := ctx.reqId, type := BackOut.LOCALE_UPDATE }]
  | BackIn.GET_EXEC => [{ id := ctx.reqId, type := BackOut.GENERIC_RESPONSE }]
  | BackIn.LAUNCH_ADDAPP => [{ id := ctx.reqId, type := BackOut.GENERIC_RESPONSE }]
  | BackIn.LAUNCH_GAME => [{ id := ctx.reqId, type := BackOut.GENERIC_RESPONSE }]
  | BackIn.SAVE_GAME => [{ id := ctx.reqId, type := BackOut.BROWSE_CHANGE }]
  | BackIn.DELETE_GAME => [{ id := ctx.reqId, type := BackOut.BROWSE_CHANGE }]
  | BackIn.DUPLICATE_GAME => [{ id := ctx.reqId, type := BackOut.BROWSE_CHANGE }]
  | BackIn.EXPORT_GAME => [{ id := ctx.reqId, type := BackOut.GENERIC_RESPONSE }]
  | BackIn.GET_GAME => [{ id := ctx.reqId, type := BackOut.GENERIC_RESPONSE }]
  | BackIn.GET_ALL_GAMES => [{ id := ctx.reqId, type := BackOut.GENERIC_RESPONSE }]
  | BackIn.RANDOM_GAMES => [{ id := ctx.reqId, type := BackOut.GENERIC_RESPONSE }]
  | BackIn.BROWSE_VIEW_PAGE => [{ id := ctx.reqId, type := BackOut.BROWSE_VIEW_PAGE_RESPONSE }]
  | BackIn.BROWSE_VIEW_INDEX => [{ id := ctx.reqId, type := BackOut.GENERIC_RESPONSE }]
  | BackIn.SAVE_IMAGE =>
      (if ctx.ioError then [{ id := "", type := BackOut.LOG }] else [])
        ++ [{ id := ctx.reqId, type := BackOut.IMAGE_CHANGE }]
  | BackIn.DELETE_IMAGE => [{ id := ctx.reqId, type := BackOut.IMAGE_CHANGE }]
  | BackIn.QUICK_SEARCH => [{ id := ctx.reqId, type := BackOut.GENERIC_RESPONSE }]
  | BackIn.UPDATE_CONFIG =>
      (if ctx.ioError then [{ id := "", type := BackOut.LOG }] else [])
        ++ [{ id := ctx.reqId, type := BackOut.GENERIC_RESPONSE }]
  | BackIn.UPDATE_PREFERENCES =>
      (if ctx.prefsDif && ctx.prefsLangChanged
        then [{ id := "", type := BackOut.LANGUAGE_CHANGE }] else [])
        ++ [{ id := ctx.reqId, type := BackOut.UPDATE_PREFERENCES_RESPONSE }]
  | BackIn.SERVICE_ACTION => [{ id := ctx.reqId, type := BackOut.GENERIC_RESPONSE }]
  | BackIn.GET_PLAYLISTS => [{ id := ctx.reqId, type := BackOut.GENERIC_RESPONSE }]
  | BackIn.SAVE_PLAYLIST => [{ id := ctx.reqId, type := BackOut.GENERIC_RESPONSE }]
  | BackIn.DELETE_PLAYLIST => [{ id := ctx.reqId, type := BackOut.GENERIC_RESPONSE }]
  | BackIn.IMPORT_CURATION => [{ id := ctx.reqId, type := BackOut.GENERIC_RESPONSE }]
  | BackIn.LAUNCH_CURATION =>
      (if ctx.ioError then [{ id := "", type := BackOut.LOG }] else [])
        ++ [{ id := ctx.reqId, type := BackOut.GENERIC_RESPONSE }]
  | BackIn.LAUNCH_CURATION_ADDAPP =>
      (if ctx.ioError then [{ id := "", type := BackOut.LOG }] else [])
        ++ [{ id := ctx.reqId, type := BackOut.GENERIC_RESPONSE }]
  | BackIn.QUIT => [{ id := ctx.reqId, type := BackOut.QUIT }]

theorem trace_one_correlated (pre : List Envelope) (t : BackOut) (rid : String)
    (hrid : rid ≠ "") (hpre : ∀ e ∈ pre, e.id = "") :
    ((pre ++ [({ id := rid, type := t } : Envelope)]).filter
        (fun e => decide (e.id = rid))).length = 1
      ∧ ∀ e ∈ pre ++ [({ id := rid, type := t } : Envelope)], e.id = rid ∨ e.id = "" := by
  constructor
  · rw [List.filter_append]
    have hnil : pre.filter (fun e => decide (e.id = rid)) = [] := by
      rw [List.filter_eq_nil_iff]
      intro e he
      simp [hpre e he, Ne.symm hrid]
    rw [hnil]
    simp
  · intro e he
    rcases List.mem_append.mp he with h | h
    · exact Or.inr (hpre e h)
    · rw [List.mem_singleton] at h
      subst h
      exact Or.inl rfl

/-- C3: for every registered handler, processing one request sends exactly one
envelope whose id equals the (nonempty) request id — the correlated response —
except `ADD_LOG`, which sends zero; every other envelope the handler can cause
carries the empty id (an unsolicited event) and is never counted as the
correlated response. -/
theorem one_correlated_response (op : BackIn) (ctx : HandlerCtx)
    (hid : ctx.reqId ≠ "") :
    ((handlerSends op ctx).filter (fun e => decide (e.id = ctx.reqId))).length
        = (if op = BackIn.ADD_LOG then 0 else 1)
      ∧ ∀ e ∈ handlerSends op ctx, e.id = ctx.reqId ∨ e.id = "" := by
  have hlog : ∀ e ∈ ([{ id := "", type := BackOut.LOG }] : List Envelope), e.id = "" := by
    intro e he; rw [List.mem_singleton] at he; subst he; rfl
  have hif : ∀ b : Bool, ∀ t : BackOut,
      ∀ e ∈ (if b then [({ id := "", type := t } : Envelope)] else []), e.id = "" := by
    intro b t e he
    cases b
    · simp at he
    · rw [if_pos rfl, List.mem_singleton] at he; subst he; rfl
  cases op
  case ADD_LOG =>
    refine ⟨?_, fun e he => Or.inr (hlog e he)⟩
    simp [handlerSends, Ne.symm hid]
  case INIT_LISTEN =>
    have hrep : ∀ e ∈ List.replicate ctx.pendingInits
        ({ id := "", type := BackOut.INIT_EVENT } : Envelope), e.id = "" := by
      intro e he
      rw [List.eq_of_mem_replicate he]
    have h := trace_one_correlated _ BackOut.INIT_EVENT ctx.reqId hid hrep
    simpa [handlerSends] using h
  case SAVE_IMAGE =>
    have h := trace_one_correlated _ BackOut.IMAGE_CHANGE ctx.reqId hid
      (hif ctx.ioError BackOut.LOG)
    simpa [handlerSends] using h
  case UPDATE_CONFIG =>
    have h := trace_one_correlated _ BackOut.GENERIC_RESPONSE ctx.reqId hid
      (hif ctx.ioError BackOut.LOG)
    simpa [handlerSends] using h
  case UPDATE_PREFERENCES =>
    have h := trace_one_correlated _ BackOut.UPDATE_PREFERENCES_RESPONSE ctx.reqId hid
      (hif (ctx.prefsDif && ctx.prefsLangChanged) BackOut.LANGUAGE_CHANGE)
    simpa [handlerSends] using h
  case LAUNCH_CURATION =>
    have h := trace_one_correlated _ BackOut.GENERIC_RESPONSE ctx.reqId hid
      (hif ctx.ioError BackOut.LOG)
    simpa [handlerSends] using h
  case LAUNCH_CURATION_ADDAPP =>
    have h := trace_one_correlated _ BackOut.GENERIC_RESPONSE ctx.reqId hid
      (hif ctx.ioError BackOut.LOG)
    simpa [handlerSends] using h
  all_goals
    refine ⟨by simp [handlerSends], ?_⟩
  all_goals
    intro e he
    rw [handlerSends, List.mem_singleton] at he
    subst he
    exact Or.inl rfl

/-- C3 witness: a concrete browse-page request with id "r1" receives exactly
one correlated envelope, and a concrete append-log request receives zero. -/
theorem one_correlated_response_witness :
    ((handlerSends BackIn.BROWSE_VIEW_PAGE ⟨"r1", 0, false, false, false⟩).filter
        (fun e => decide (e.id = "r1"))).length
      = (if BackIn.BROWSE_VIEW_PAGE = BackIn.ADD_LOG then 0 else 1)
    ∧ ∀ e ∈ handlerSends BackIn.BROWSE_VIEW_PAGE ⟨"r1", 0, false, false, false⟩,
        e.id = "r1" ∨ e.id = "" :=
  one_correlated_response BackIn.BROWSE_VIEW_PAGE ⟨"r1", 0, false, false, false⟩
    (by decide)

/-! ## The settings diff engine (C8) -/

/-- A JavaScript value of the shapes `difObjects` walks: booleans, numbers,
strings, `undefined`, and objects (association lists in property-insertion
order). JavaScript numbers are modeled as integers, which excludes `NaN` (for
which `!==` is not inequality); `null` and arrays do not occur in the settings
shapes and are not modeled. The strict comparison `!==` of two distinct but
structurally equal objects is reference inequality in JavaScript; the model
compares structurally, which yields the same diff output, since recursing into
structurally equal objects contributes nothing. -/
inductive JSVal where
  | vBool : Bool → JSVal
  | vNum : Int → JSVal
  | vStr : String → JSVal
  | vUndef : JSVal
  | vObj : List (String × JSVal) → JSVal

mutual
/-- Structural equality of modeled JavaScript values (see `JSVal` on its
relation to `===`). -/
def jsBeq : JSVal → JSVal → Bool
  | JSVal.vBool a, JSVal.vBool b => a == b
  | JSVal.vNum a, JSVal.vNum b => a == b
  | JSVal.vStr a, JSVal.vStr b => a == b
  | JSVal.vUndef, JSVal.vUndef => true
  | JSVal.vObj a, JSVal.vObj b => jsBeqFields a b
  | _, _ => false
/-- Structural equality of object field lists. -/
def jsBeqFields : List (String × JSVal) → List (String × JSVal) → Bool
  | [], [] => true
  | (k1, v1) :: r1, (k2, v2) :: r2 => k1 == k2 && jsBeq v1 v2 && jsBeqFields r1 r2
  | _, _ => false
end

/-- `typeof x === 'object'` over the modeled shapes. -/
def isObj : JSVal → Bool
  | JSVal.vObj _ => true
  | _ => false

/-- Property lookup in an object's field list: the first binding of the key,
`undefined` when absent. -/
def jsGetFields (k : String) : List (String × JSVal) → JSVal
  | [] => JSVal.vUndef
  | (k1, v1) :: rest => if k1 = k then v1 else jsGetFields k rest

/-- `a[key]`: property lookup, `undefined` on non-objects. -/
def jsGet (a : JSVal) (k : String) : JSVal :=
  match a with
  | JSVal.vObj fields => jsGetFields k fields
  | _ => JSVal.vUndef

mutual
/-- `difObjects` (responses.ts lines 762-780): iterate over the template's
keys; where candidate and current differ and the candidate value is present,
attach the candidate's value — recursing when template, current and candidate
values are all objects, and attaching the sub-diff only if nonempty. Returns
`none` (`undefined`) when no key differs. -/
def difObjects (template a b : JSVal) : Option JSVal :=
  match template with
  | JSVal.vObj tf =>
    match difFields tf a b with
    | [] => none
    | fs => some (JSVal.vObj fs)
  | _ => none
/-- The body of the `for (let key in template)` loop of `difObjects`, over the
template's field list, producing the entries of `dif` in template key order. -/
def difFields : List (String × JSVal) → JSVal → JSVal → List (String × JSVal)
  | [], _, _ => []
  | (k, tv) :: rest, a, b =>
    let av := jsGet a k
    let bv := jsGet b k
    let tail := difFields rest a b
    if jsBeq av bv || jsBeq bv JSVal.vUndef then tail
    else if isObj tv && isObj av && isObj bv then
      match difObjects tv av bv with
      | some d => (k, d) :: tail
      | none => tail
    else (k, bv) :: tail
end

mutual
theorem jsBeq_iff : ∀ a b, jsBeq a b = true ↔ a = b
  | JSVal.vBool a, JSVal.vBool b => by simp [jsBeq]
  | JSVal.vBool a, JSVal.vNum b => by simp [jsBeq]
  | JSVal.vBool a, JSVal.vStr b => by simp [jsBeq]
  | JSVal.vBool a, JSVal.vUndef => by simp [jsBeq]
  | JSVal.vBool a, JSVal.vObj b => by simp [jsBeq]
  | JSVal.vNum a, JSVal.vBool b => by simp [jsBeq]
  | JSVal.vNum a, JSVal.vNum b => by simp [jsBeq]
  | JSVal.vNum a, JSVal.vStr b => by simp [jsBeq]
  | JSVal.vNum a, JSVal.vUndef => by simp [jsBeq]
  | JSVal.vNum a, JSVal.vObj b => by simp [jsBeq]
  | JSVal.vStr a, JSVal.vBool b => by simp [jsBeq]
  | JSVal.vStr a, JSVal.vNum b => by simp [jsBeq]
  | JSVal.vStr a, JSVal.vStr b => by simp [jsBeq]
  | JSVal.vStr a, JSVal.vUndef => by simp [jsBeq]
  | JSVal.vStr a, JSVal.vObj b => by simp [jsBeq]
  | JSVal.vUndef, JSVal.vBool b => by simp [jsBeq]
  | JSVal.vUndef, JSVal.vNum b => by simp [jsBeq]
  | JSVal.vUndef, JSVal.vStr b => by simp [jsBeq]
  | JSVal.vUndef, JSVal.vUndef => by simp [jsBeq]
  | JSVal.vUndef, JSVal.vObj b => by simp [jsBeq]
  | JSVal.vObj a, JSVal.vBool b => by simp [jsBeq]
  | JSVal.vObj a, JSVal.vNum b => by simp [jsBeq]
  | JSVal.vObj a, JSVal.vStr b => by simp [jsBeq]
  | JSVal.vObj a, JSVal.vUndef => by simp [jsBeq]
  | JSVal.vObj a, JSVal.vObj b => by
      rw [jsBeq, jsBeqFields_iff a b]
      simp
theorem jsBeqFields_iff : ∀ a b, jsBeqFields a b = true ↔ a = b
  | [], [] => by simp [jsBeqFields]
  | (k1, v1) :: r1, (k2, v2) :: r2 => by
      rw [jsBeqFields]
      simp [jsBeq_iff v1 v2, jsBeqFields_iff r1 r2]
  | [], (k2, v2) :: r2 => by simp [jsBeqFields]
  | (k1, v1) :: r1, [] => by simp [jsBeqFields]
end

theorem jsBeq_refl (a : JSVal) : jsBeq a a = true := (jsBeq_iff a a).mpr rfl

theorem jsBeq_eq_false_of_ne {a b : JSVal} (h : a ≠ b) : jsBeq a b = false := by
  rcases hb : jsBeq a b with _ | _
  · rfl
  · exact absurd ((jsBeq_iff a b).mp hb) h

theorem difFields_skip (a b : JSVal) :
    ∀ l : List (String × JSVal),
      (∀ p ∈ l, jsGet a p.1 = jsGet b p.1) → difFields l a b = [] := by
  intro l
  induction l with
  | nil => intro _; rfl
  | cons p rest ih =>
    intro h
    obtain ⟨k, tv⟩ := p
    rw [difFields]
    rw [h ⟨k, tv⟩ (List.mem_cons_self _ _), jsBeq_refl]
    simp only [Bool.true_or, if_pos]
    exact ih (fun q hq => h q (List.mem_cons_of_mem _ hq))

theorem difFields_append (a b : JSVal) :
    ∀ l1 l2 : List (String × JSVal),
      difFields (l1 ++ l2) a b = difFields l1 a b ++ difFields l2 a b := by
  intro l1 l2
  induction l1 with
  | nil => rfl
  | cons p rest ih =>
    obtain ⟨k, tv⟩ := p
    rw [List.cons_append, difFields, difFields]
    rw [ih]
    by_cases h1 : (jsBeq (jsGet a k) (jsGet b k) || jsBeq (jsGet b k) JSVal.vUndef) = true
    · rw [if_pos h1, if_pos h1]
    · rw [if_neg h1, if_neg h1]
      by_cases h2 : (isObj tv && isObj (jsGet a k) && isObj (jsGet b k)) = true
      · rw [if_pos h2, if_pos h2]
        cases difObjects tv (jsGet a k) (jsGet b k) with
        | none => rfl
        | some d => rfl
      · rw [if_neg h2, if_neg h2]
        rfl

theorem difFields_key_not_mem (a b : JSVal) (k : String)
    (habs : jsGet b k = JSVal.vUndef ∨ jsGet a k = jsGet b k) :
    ∀ l : List (String × JSVal), k ∉ (difFields l a b).map Prod.fst := by
  intro l
  induction l with
  | nil => simp [difFields]
  | cons p rest ih =>
    obtain ⟨k1, tv⟩ := p
    rw [difFields]
    by_cases hk : k1 = k
    · subst hk
      have hguard : (jsBeq (jsGet a k1) (jsGet b k1) || jsBeq (jsGet b k1) JSVal.vUndef) = true := by
        rcases habs with h | h
        · rw [h, jsBeq_refl]; simp
        · rw [h, jsBeq_refl]; simp
      rw [if_pos hguard]
      exact ih
    · by_cases h1 : (jsBeq (jsGet a k1) (jsGet b k1) || jsBeq (jsGet b k1) JSVal.vUndef) = true
      · rw [if_pos h1]; exact ih
      · rw [if_neg h1]
        by_cases h2 : (isObj tv && isObj (jsGet a k1) && isObj (jsGet b k1)) = true
        · rw [if_pos h2]
          cases difObjects tv (jsGet a k1) (jsGet b k1) with
          | none => exact ih
          | some d =>
            intro hmem
            rcases List.mem_map.mp hmem with ⟨q, hq, hfst⟩
            rcases List.mem_cons.mp hq with h | h
            · subst h; exact hk hfst
            · exact ih (List.mem_map.mpr ⟨q, h, hfst⟩)
        · rw [if_neg h2]
          intro hmem
          rcases List.mem_map.mp hmem with ⟨q, hq, hfst⟩
          rcases List.mem_cons.mp hq with h | h
          · subst h; exact hk hfst
          · exact ih (List.mem_map.mpr ⟨q, h, hfst⟩)

/-- C8: the settings diff is a minimal patch.
Part 1: diffing any value against itself yields the absent result, for every
template.
Part 2: a key whose candidate value is absent (`undefined`) or equal to the
current value never appears among the keys of the result.
Part 3: when current `a` and candidate `b` agree at every template key except
`nk`, whose values are objects agreeing at every nested key except the
non-object leaf `lk`, present in `b` and different from its current value,
the diff is exactly the one-key object `nk` containing the one-key object `lk`
with the candidate's leaf value — and nothing else. -/
theorem difObjects_minimal_patch :
    (∀ t a, difObjects t a a = none)
    ∧ (∀ t a b k fs, (jsGet b k = JSVal.vUndef ∨ jsGet a k = jsGet b k) →
        difObjects t a b = some (JSVal.vObj fs) → k ∉ fs.map Prod.fst)
    ∧ (∀ (nk lk : String) (tf1 tf2 tn1 tn2 : List (String × JSVal))
        (tleaf : JSVal) (a b : JSVal) (anf bnf : List (String × JSVal)),
        (∀ p ∈ tf1, p.1 ≠ nk) → (∀ p ∈ tf2, p.1 ≠ nk) →
        (∀ k, k ≠ nk → jsGet a k = jsGet b k) →
        jsGet a nk = JSVal.vObj anf → jsGet b nk = JSVal.vObj bnf →
        (∀ p ∈ tn1, p.1 ≠ lk) → (∀ p ∈ tn2, p.1 ≠ lk) →
        (∀ k, k ≠ lk → jsGetFields k anf = jsGetFields k bnf) →
        jsGetFields lk anf ≠ jsGetFields lk bnf →
        jsGetFields lk bnf ≠ JSVal.vUndef →
        isObj tleaf = false →
        difObjects
            (JSVal.vObj (tf1 ++ (nk, JSVal.vObj (tn1 ++ (lk, tleaf) :: tn2)) :: tf2))
            a b
          = some (JSVal.vObj
              [(nk, JSVal.vObj [(lk, jsGetFields lk bnf)])])) := by
  refine ⟨?_, ?_, ?_⟩
  · intro t a
    cases t with
    | vObj tf =>
      rw [difObjects, difFields_skip a a tf (fun p _ => rfl)]
    | vBool x => rfl
    | vNum x => rfl
    | vStr x => rfl
    | vUndef => rfl
  · intro t a b k fs habs hdif
    cases t with
    | vObj tf =>
      rw [difObjects] at hdif
      rcases hd : difFields tf a b with _ | ⟨p, rest⟩ <;> rw [hd] at hdif
      · simp at hdif
      · simp only [Option.some.injEq, JSVal.vObj.injEq] at hdif
        subst hdif
        rw [← hd]
        exact difFields_key_not_mem a b k habs tf
    | vBool x => simp [difObjects] at hdif
    | vNum x => simp [difObjects] at hdif
    | vStr x => simp [difObjects] at hdif
    | vUndef => simp [difObjects] at hdif
  · intro nk lk tf1 tf2 tn1 tn2 tleaf a b anf bnf
    intro hk1 hk2 hagree han hbn hl1 hl2 hinagree hdiff hbleaf htleaf
    have hinner :
        difObjects (JSVal.vObj (tn1 ++ (lk, tleaf) :: tn2))
            (JSVal.vObj anf) (JSVal.vObj bnf)
          = some (JSVal.vObj [(lk, jsGetFields lk bnf)]) := by
      rw [difObjects, difFields_append]
      rw [difFields_skip _ _ tn1
        (fun p hp => by
          show jsGetFields p.1 anf = jsGetFields p.1 bnf
          exact hinagree p.1 (hl1 p hp))]
      rw [difFields]
      rw [difFields_skip _ _ tn2
        (fun p hp => by
          show jsGetFields p.1 anf = jsGetFields p.1 bnf
          exact hinagree p.1 (hl2 p hp))]
      have hga : jsGet (JSVal.vObj anf) lk = jsGetFields lk anf := rfl
      have hgb : jsGet (JSVal.vObj bnf) lk = jsGetFields lk bnf := rfl
      rw [hga, hgb, jsBeq_eq_false_of_ne hdiff, jsBeq_eq_false_of_ne hbleaf, htleaf]
      simp
    rw [difObjects, difFields_append]
    rw [difFields_skip a b tf1 (fun p hp => hagree p.1 (hk1 p hp))]
    rw [difFields]
    rw [difFields_skip a b tf2 (fun p hp => hagree p.1 (hk2 p hp))]
    have hne : jsGet a nk ≠ jsGet b nk := by
      rw [han, hbn]
      intro h
      simp only [JSVal.vObj.injEq] at h
      exact hdiff (by rw [h])
    have hbv : jsBeq (jsGet b nk) JSVal.vUndef = false := by
      apply jsBeq_eq_false_of_ne
      rw [hbn]
      simp
    rw [jsBeq_eq_false_of_ne hne, hbv, han, hbn, hinner]
    simp [isObj]

/-- C8 witness: a two-level template; diffing a value against itself is
absent, a key with equal values never appears, and changing exactly the nested
leaf yields exactly the one-leaf patch. -/
theorem difObjects_minimal_patch_witness :
    difObjects
        (JSVal.vObj [("top", JSVal.vNum 0),
          ("nested", JSVal.vObj [("leaf", JSVal.vNum 0), ("other", JSVal.vBool false)])])
        (JSVal.vObj [("top", JSVal.vNum 5),
          ("nested", JSVal.vObj [("leaf", JSVal.vNum 1), ("other", JSVal.vBool true)])])
        (JSVal.vObj [("top", JSVal.vNum 5),
          ("nested", JSVal.vObj [("leaf", JSVal.vNum 2), ("other", JSVal.vBool true)])])
      = some (JSVal.vObj [("nested", JSVal.vObj [("leaf", JSVal.vNum 2)])]) := by
  have h := difObjects_minimal_patch.2.2 "nested" "leaf"
    [("top", JSVal.vNum 0)] [] [] [("other", JSVal.vBool false)] (JSVal.vNum 0)
    (JSVal.vObj [("top", JSVal.vNum 5),
      ("nested", JSVal.vObj [("leaf", JSVal.vNum 1), ("other", JSVal.vBool true)])])
    (JSVal.vObj [("top", JSVal.vNum 5),
      ("nested", JSVal.vObj [("leaf", JSVal.vNum 2), ("other", JSVal.vBool true)])])
    [("leaf", JSVal.vNum 1), ("other", JSVal.vBool true)]
    [("leaf", JSVal.vNum 2), ("other", JSVal.vBool true)]
    (by intro p hp; simp only [List.mem_singleton] at hp; subst hp; decide)
    (by intro p hp; simp at hp)
    ?_ rfl rfl
    (by intro p hp; simp at hp)
    (by intro p hp; simp only [List.mem_singleton] at hp; subst hp; decide)
    ?_
    (by show JSVal.vNum 1 ≠ JSVal.vNum 2
        intro hc; injection hc with hc'; exact absurd hc' (by decide))
    (by show JSVal.vNum 2 ≠ JSVal.vUndef
        intro hc; exact JSVal.noConfusion hc)
    rfl
  · exact h
  · intro k hk
    show jsGetFields k _ = jsGetFields k _
    simp only [jsGetFields]
    by_cases h1 : ("top" : String) = k
    · rw [if_pos h1, if_pos h1]
    · rw [if_neg h1, if_neg h1,
        if_neg (fun he : ("nested" : String) = k => hk he.symm),
        if_neg (fun he : ("nested" : String) = k => hk he.symm)]
  · intro k hk
    simp only [jsGetFields]
    rw [if_neg (fun he : ("leaf" : String) = k => hk he.symm),
        if_neg (fun he : ("leaf" : String) = k => hk he.symm)]

/-! ## Query fingerprints (C1) -/

/-- Lower-case hexadecimal digit of a value below 16, as emitted by
`JSON.stringify` in a `\u00XX` escape. -/
def hexDig (n : Nat) : Char :=
  if n < 10 then Char.ofNat (48 + n) else Char.ofNat (87 + n)

/-- The escape of one character inside a JSON string literal, following
`JSON.stringify` (ECMA-262 QuoteJSONString): the quote and the backslash are
escaped, backspace, tab, line feed, form feed and carriage return take their
two-character escapes, every other control character becomes a `\u00XX`
escape, and everything else is emitted verbatim. -/
def escChar (c : Char) : List Char :=
  if c = '"' then ['\\', '"']
  else if c = '\\' then ['\\', '\\']
  else if c = '\x08' then ['\\', 'b']
  else if c = '\x09' then ['\\', 't']
  else if c = '\x0a' then ['\\', 'n']
  else if c = '\x0c' then ['\\', 'f']
  else if c = '\x0d' then ['\\', 'r']
  else if c.toNat < 32 then
    ['\\', 'u', '0', '0', hexDig (c.toNat / 16), hexDig (c.toNat % 16)]
  else [c]

/-- The escaped character text of a JSON string, character by character. -/
def escList : List Char → List Char
  | [] => []
  | c :: rest => escChar c ++ escList rest

/-- One optional field of the serialized query: when the value is present,
the field's key text (ending in the value's opening quote), the escaped value
and the closing quote precede the continuation `t`; a field holding
`undefined` is omitted entirely, as `JSON.stringify` omits it. -/
def optStrField (key : List Char) (v : Option String) (t : List Char) : List Char :=
  match v with
  | some l => key ++ (escList l.data ++ ('"' :: t))
  | none => t

/-- `JSON.stringify(query)` of a `BackQuery` built with the seven fields in
source order (responses.ts lines 373-381): keys appear in insertion order,
booleans as `true`/`false`, strings quoted and escaped, `library` and
`playlistId` omitted when undefined. The text is assembled continuation-style
(right-nested concatenation), producing exactly the `JSON.stringify`
character sequence. -/
def serializeBackQuery (q : BackQuery) : List Char :=
  "\x7b\"extreme\":".data ++
  ((if q.extreme then "true".data else "false".data) ++
  (",\"broken\":".data ++
  ((if q.broken then "true".data else "false".data) ++
  (optStrField ",\"library\":\"".data q.library
  (",\"search\":\"".data ++
  (escList q.search.data ++ ('"' ::
  (",\"orderBy\":\"".data ++
  (escList q.orderBy.data ++ ('"' ::
  (",\"orderReverse\":\"".data ++
  (escList q.orderReverse.data ++ ('"' ::
  (optStrField ",\"playlistId\":\"".data q.playlistId "\x7d".data))))))))))))))

/-- Inverse development for the serialization: `stripLit lit input` removes
the exact literal prefix `lit` from `input`. -/
def stripLit : List Char → List Char → Option (List Char)
  | [], input => some input
  | _ :: _, [] => none
  | c :: cs, d :: input => if c = d then stripLit cs input else none

/-- Value of one hexadecimal digit, for reading back a `\u00XX` escape. -/
def hexVal (d : Char) : Option Nat :=
  if 48 ≤ d.toNat ∧ d.toNat ≤ 57 then some (d.toNat - 48)
  else if 97 ≤ d.toNat ∧ d.toNat ≤ 102 then some (d.toNat - 87)
  else none

/-- Inverse of the JSON string-body escaping: reads escaped characters until
the closing quote, returning the unescaped text and the remaining input. -/
def parseStrAux : List Char → Option (List Char × List Char)
  | [] => none
  | '"' :: rest => some ([], rest)
  | '\\' :: '"' :: rest => (parseStrAux rest).map (fun p => ('"' :: p.1, p.2))
  | '\\' :: '\\' :: rest => (parseStrAux rest).map (fun p => ('\\' :: p.1, p.2))
  | '\\' :: 'b' :: rest => (parseStrAux rest).map (fun p => ('\x08' :: p.1, p.2))
  | '\\' :: 't' :: rest => (parseStrAux rest).map (fun p => ('\x09' :: p.1, p.2))
  | '\\' :: 'n' :: rest => (parseStrAux rest).map (fun p => ('\x0a' :: p.1, p.2))
  | '\\' :: 'f' :: rest => (parseStrAux rest).map (fun p => ('\x0c' :: p.1, p.2))
  | '\\' :: 'r' :: rest => (parseStrAux rest).map (fun p => ('\x0d' :: p.1, p.2))
  | '\\' :: 'u' :: d1 :: d2 :: d3 :: d4 :: rest =>
    (match hexVal d1, hexVal d2, hexVal d3, hexVal d4 with
     | some a, some b, some c2, some d =>
       (parseStrAux rest).map
         (fun p => (Char.ofNat (4096 * a + 256 * b + 16 * c2 + d) :: p.1, p.2))
     | _, _, _, _ => none)
  | '\\' :: _ => none
  | c :: rest => (parseStrAux rest).map (fun p => (c :: p.1, p.2))

/-- Reads a serialized boolean. -/
def parseBoolLit : List Char → Option (Bool × List Char)
  | 't' :: 'r' :: 'u' :: 'e' :: rest => some (true, rest)
  | 'f' :: 'a' :: 'l' :: 's' :: 'e' :: rest => some (false, rest)
  | _ => none

/-- Full inverse of `serializeBackQuery`: reads the seven fields back from
the serialized text, consuming the whole input. -/
def parseBackQuery (input : List Char) : Option BackQuery := do
  let i1 ← stripLit "\x7b\"extreme\":".data input
  let (e, i2) ← parseBoolLit i1
  let i3 ← stripLit ",\"broken\":".data i2
  let (b, i4) ← parseBoolLit i3
  let (lib, i5) ←
    match stripLit ",\"library\":\"".data i4 with
    | some j => (parseStrAux j).map (fun p => (some (String.mk p.1), p.2))
    | none => some (none, i4)
  let i6 ← stripLit ",\"search\":\"".data i5
  let (sv, i7) ← parseStrAux i6
  let i8 ← stripLit ",\"orderBy\":\"".data i7
  let (ob, i9) ← parseStrAux i8
  let i10 ← stripLit ",\"orderReverse\":\"".data i9
  let (orv, i11) ← parseStrAux i10
  let (pid, i12) ←
    match stripLit ",\"playlistId\":\"".data i11 with
    | some j => (parseStrAux j).map (fun p => (some (String.mk p.1), p.2))
    | none => some (none, i11)
  let i13 ← stripLit "\x7d".data i12
  match i13 with
  | [] => some { extreme := e, broken := b, library := lib,
                 search := String.mk sv, orderBy := String.mk ob,
                 orderReverse := String.mk orv, playlistId := pid }
  | _ :: _ => none

theorem stripLit_append : ∀ (lit rest : List Char), stripLit lit (lit ++ rest) = some rest
  | [], _ => rfl
  | c :: cs, rest => by
    rw [List.cons_append, stripLit, if_pos rfl]
    exact stripLit_append cs rest

theorem parseBoolLit_append (b : Bool) (rest : List Char) :
    parseBoolLit ((if b then ['t', 'r', 'u', 'e'] else ['f', 'a', 'l', 's', 'e']) ++ rest)
      = some (b, rest) := by
  cases b
  · rfl
  · rfl

theorem parseStrAux_quote (l : List Char) :
    parseStrAux ('\\' :: '"' :: l) = (parseStrAux l).map (fun p => ('"' :: p.1, p.2)) := rfl

theorem hexVal_hexDig (n : Nat) (h : n < 16) : hexVal (hexDig n) = some n := by
  interval_cases n <;> rfl

theorem parseStrAux_bs (l : List Char) :
    parseStrAux ('\\' :: '\\' :: l) = (parseStrAux l).map (fun p => ('\\' :: p.1, p.2)) := rfl

theorem parseStrAux_b (l : List Char) :
    parseStrAux ('\\' :: 'b' :: l) = (parseStrAux l).map (fun p => ('\x08' :: p.1, p.2)) := rfl

theorem parseStrAux_t (l : List Char) :
    parseStrAux ('\\' :: 't' :: l) = (parseStrAux l).map (fun p => ('\x09' :: p.1, p.2)) := rfl

theorem parseStrAux_n (l : List Char) :
    parseStrAux ('\\' :: 'n' :: l) = (parseStrAux l).map (fun p => ('\x0a' :: p.1, p.2)) := rfl

theorem parseStrAux_f (l : List Char) :
    parseStrAux ('\\' :: 'f' :: l) = (parseStrAux l).map (fun p => ('\x0c' :: p.1, p.2)) := rfl

theorem parseStrAux_r (l : List Char) :
    parseStrAux ('\\' :: 'r' :: l) = (parseStrAux l).map (fun p => ('\x0d' :: p.1, p.2)) := rfl

theorem parseStrAux_u (d1 d2 d3 d4 : Char) (l : List Char) :
    parseStrAux ('\\' :: 'u' :: d1 :: d2 :: d3 :: d4 :: l)
      = (match hexVal d1, hexVal d2, hexVal d3, hexVal d4 with
         | some a, some b, some c2, some d =>
           (parseStrAux l).map
             (fun p => (Char.ofNat (4096 * a + 256 * b + 16 * c2 + d) :: p.1, p.2))
         | _, _, _, _ => none) := rfl

theorem parseStrAux_normal (c : Char) (h1 : ¬c = '"') (h2 : ¬c = '\\') (l : List Char) :
    parseStrAux (c :: l) = (parseStrAux l).map (fun p => (c :: p.1, p.2)) := by
  rw [parseStrAux.eq_def]
  split <;> rename_i heq
  · exact absurd heq (by simp)
  all_goals injection heq with hc hl
  all_goals
    first
    | exact absurd hc h1
    | exact absurd hc h2
    | (subst hc; subst hl; rfl)

theorem parseStrAux_round : ∀ (s rest : List Char),
    parseStrAux (escList s ++ '"' :: rest) = some (s, rest)
  | [], _ => rfl
  | c :: cs, rest => by
    have hrec := parseStrAux_round cs rest
    show parseStrAux ((escChar c ++ escList cs) ++ '"' :: rest) = some (c :: cs, rest)
    rw [List.append_assoc]
    by_cases h1 : c = '"'
    · subst h1
      rw [show escChar '"' = ['\\', '"'] from rfl, List.cons_append, List.cons_append,
        List.nil_append, parseStrAux_quote, hrec]
      rfl
    by_cases h2 : c = '\\'
    · subst h2
      rw [show escChar '\\' = ['\\', '\\'] from rfl, List.cons_append, List.cons_append,
        List.nil_append, parseStrAux_bs, hrec]
      rfl
    by_cases h3 : c = '\x08'
    · subst h3
      rw [show escChar '\x08' = ['\\', 'b'] from rfl, List.cons_append, List.cons_append,
        List.nil_append, parseStrAux_b, hrec]
      rfl
    by_cases h4 : c = '\x09'
    · subst h4
      rw [show escChar '\x09' = ['\\', 't'] from rfl, List.cons_append, List.cons_append,
        List.nil_append, parseStrAux_t, hrec]
      rfl
    by_cases h5 : c = '\x0a'
    · subst h5
      rw [show escChar '\x0a' = ['\\', 'n'] from rfl, List.cons_append, List.cons_append,
        List.nil_append, parseStrAux_n, hrec]
      rfl
    by_cases h6 : c = '\x0c'
    · subst h6
      rw [show escChar '\x0c' = ['\\', 'f'] from rfl, List.cons_append, List.cons_append,
        List.nil_append, parseStrAux_f, hrec]
      rfl
    by_cases h7 : c = '\x0d'
    · subst h7
      rw [show escChar '\x0d' = ['\\', 'r'] from rfl, List.cons_append, List.cons_append,
        List.nil_append, parseStrAux_r, hrec]
      rfl
    by_cases h8 : c.toNat < 32
    · have hesc : escChar c
          = ['\\', 'u', '0', '0', hexDig (c.toNat / 16), hexDig (c.toNat % 16)] := by
        rw [escChar, if_neg h1, if_neg h2, if_neg h3, if_neg h4, if_neg h5, if_neg h6,
          if_neg h7, if_pos h8]
      rw [hesc]
      simp only [List.cons_append, List.nil_append]
      rw [parseStrAux_u, show hexVal '0' = some 0 from rfl,
        hexVal_hexDig (c.toNat / 16) (by omega), hexVal_hexDig (c.toNat % 16) (by omega),
        hrec]
      have hv : 4096 * 0 + 256 * 0 + 16 * (c.toNat / 16) + c.toNat % 16 = c.toNat := by
        omega
      show some (Char.ofNat (4096 * 0 + 256 * 0 + 16 * (c.toNat / 16) + c.toNat % 16) :: cs,
        rest) = some (c :: cs, rest)
      rw [hv, Char.ofNat_toNat]
    · have hesc : escChar c = [c] := by
        rw [escChar, if_neg h1, if_neg h2, if_neg h3, if_neg h4, if_neg h5, if_neg h6,
          if_neg h7, if_neg h8]
      rw [hesc, List.cons_append, List.nil_append, parseStrAux_normal c h1 h2, hrec]
      rfl

set_option maxHeartbeats 8000000 in
theorem parseBackQuery_round (q : BackQuery) :
    parseBackQuery (serializeBackQuery q) = some q := by
  obtain ⟨e, b, lib, s, ob, orv, pid⟩ := q
  have hlibnone : ∀ X : List Char,
      stripLit [',', '"', 'l', 'i', 'b', 'r', 'a', 'r', 'y', '"', ':', '"']
        ([',', '"', 's', 'e', 'a', 'r', 'c', 'h', '"', ':', '"'] ++ X) = none :=
    fun _ => rfl
  have hpidnone :
      stripLit [',', '"', 'p', 'l', 'a', 'y', 'l', 'i', 's', 't', 'I', 'd', '"', ':', '"']
        ['\x7d'] = none := rfl
  have hclose : stripLit ['\x7d'] ['\x7d'] = some [] := rfl
  rcases lib with _ | l <;> rcases pid with _ | p
  all_goals first | simp only [serializeBackQuery, optStrField] | skip
  all_goals first | simp only [parseBackQuery, Option.bind_eq_bind] | skip
  all_goals first | simp only [stripLit_append, Option.some_bind] | skip
  all_goals first | simp only [parseBoolLit_append, Option.some_bind] | skip
  all_goals first | simp only [stripLit_append, Option.some_bind] | skip
  all_goals first | simp only [parseBoolLit_append, Option.some_bind] | skip
  all_goals first | simp only [hlibnone, Option.some_bind] | skip
  all_goals first | simp only [stripLit_append, Option.some_bind] | skip
  all_goals first | simp only [parseStrAux_round, Option.map_some', Option.some_bind] | skip
  all_goals first | simp only [stripLit_append, Option.some_bind] | skip
  all_goals first | simp only [parseStrAux_round, Option.map_some', Option.some_bind] | skip
  all_goals first | simp only [stripLit_append, Option.some_bind] | skip
  all_goals first | simp only [parseStrAux_round, Option.map_some', Option.some_bind] | skip
  all_goals first | simp only [stripLit_append, Option.some_bind] | skip
  all_goals first | simp only [parseStrAux_round, Option.map_some', Option.some_bind] | skip
  all_goals first | simp only [hpidnone, Option.some_bind] | skip
  all_goals first | simp only [stripLit_append, Option.some_bind] | skip
  all_goals first | simp only [parseStrAux_round, Option.map_some', Option.some_bind] | skip
  all_goals first | simp only [hclose, Option.some_bind] | skip
  all_goals rfl

/-- Serialization is injective: the canonical serialized text of a query
determines the query. -/
theorem serializeBackQuery_inj (q1 q2 : BackQuery)
    (h : serializeBackQuery q1 = serializeBackQuery q2) : q1 = q2 := by
  have r1 := parseBackQuery_round q1
  rw [h, parseBackQuery_round q2] at r1
  exact (Option.some.inj r1).symm

/-- The query object built by the `BROWSE_VIEW_PAGE` handler from
`req.data.query` (responses.ts lines 373-381). -/
def browseViewPageQuery (q : BackQuery) : BackQuery :=
  { extreme := q.extreme, broken := q.broken, library := q.library
    search := q.search, orderBy := q.orderBy, orderReverse := q.orderReverse
    playlistId := q.playlistId }

/-- The query object built by the `BROWSE_VIEW_INDEX` handler
(responses.ts lines 399-407). -/
def browseViewIndexQuery (q : BackQuery) : BackQuery :=
  { extreme := q.extreme, broken := q.broken, library := q.library
    search := q.search, orderBy := q.orderBy, orderReverse := q.orderReverse
    playlistId := q.playlistId }

/-- The query object built by the `QUICK_SEARCH` handler
(responses.ts lines 484-492). -/
def quickSearchQuery (q : BackQuery) : BackQuery :=
  { extreme := q.extreme, broken := q.broken, library := q.library
    search := q.search, orderBy := q.orderBy, orderReverse := q.orderReverse
    playlistId := q.playlistId }

/-- The cache key `createHash('sha256').update(JSON.stringify(query))
.digest('base64')` of responses.ts line 383. Per the claim, the SHA-256/base64
digest is modeled as an injective function of the serialized text — concretely,
as the canonical serialization itself. -/
def browseViewPageFingerprint (q : BackQuery) : List Char :=
  serializeBackQuery (browseViewPageQuery q)

/-- The fingerprint computed at responses.ts line 409. -/
def browseViewIndexFingerprint (q : BackQuery) : List Char :=
  serializeBackQuery (browseViewIndexQuery q)

/-- The fingerprint computed at responses.ts line 494. -/
def quickSearchFingerprint (q : BackQuery) : List Char :=
  serializeBackQuery (quickSearchQuery q)

/-- C1: the query fingerprint is deterministic and canonical. The three
handlers compute the same fingerprint for the same query; field-wise equal
queries receive equal fingerprints; distinct queries receive distinct
fingerprints (the digest being modeled as injective on the canonicalized
serialization, so this is injectivity of the serialization). -/
theorem query_fingerprint_canonical (q1 q2 : BackQuery) :
    (browseViewPageFingerprint q1 = browseViewIndexFingerprint q1
      ∧ browseViewIndexFingerprint q1 = quickSearchFingerprint q1)
    ∧ ((q1.extreme = q2.extreme ∧ q1.broken = q2.broken ∧ q1.library = q2.library
        ∧ q1.search = q2.search ∧ q1.orderBy = q2.orderBy
        ∧ q1.orderReverse = q2.orderReverse ∧ q1.playlistId = q2.playlistId)
        → browseViewPageFingerprint q1 = browseViewPageFingerprint q2)
    ∧ (q1 ≠ q2 → browseViewPageFingerprint q1 ≠ browseViewPageFingerprint q2) := by
  refine ⟨⟨rfl, rfl⟩, ?_, ?_⟩
  · intro h
    obtain ⟨h1, h2, h3, h4, h5, h6, h7⟩ := h
    have hq : q1 = q2 := by
      cases q1; cases q2
      simp only at h1 h2 h3 h4 h5 h6 h7
      simp [h1, h2, h3, h4, h5, h6, h7]
    rw [hq]
  · intro hne heq
    apply hne
    exact serializeBackQuery_inj (browseViewPageQuery q1) (browseViewPageQuery q2) heq

/-- A first concrete query for the C1 witness. -/
def sampleQueryA : BackQuery :=
  { extreme := true, broken := false, library := some "arcade"
    search := "mario", orderBy := "title", orderReverse := "ascending"
    playlistId := none }

/-- A second concrete query, differing from the first in its search text. -/
def sampleQueryB : BackQuery :=
  { extreme := true, broken := false, library := some "arcade"
    search := "zelda", orderBy := "title", orderReverse := "ascending"
    playlistId := none }

/-- C1 witness: at two concrete queries, the three handlers agree, the
field-wise equal pair gets one fingerprint, and the unequal pair gets two. -/
theorem query_fingerprint_canonical_witness :
    (browseViewPageFingerprint sampleQueryA = browseViewIndexFingerprint sampleQueryA
      ∧ browseViewIndexFingerprint sampleQueryA = quickSearchFingerprint sampleQueryA)
    ∧ browseViewPageFingerprint sampleQueryA = browseViewPageFingerprint sampleQueryA
    ∧ browseViewPageFingerprint sampleQueryA ≠ browseViewPageFingerprint sampleQueryB :=
  ⟨(query_fingerprint_canonical sampleQueryA sampleQueryA).1,
   (query_fingerprint_canonical sampleQueryA sampleQueryA).2.1
     (by refine ⟨rfl, rfl, rfl, rfl, rfl, rfl, rfl⟩),
   (query_fingerprint_canonical sampleQueryA sampleQueryB).2.2 (by decide)⟩

end Launcher

